import Mathlib

/-!
Shallow embedding of the configuration-resolution and compilation-orchestration
core of askama_derive (src/askama_derive/src/config.rs and
src/askama_derive/src/lib.rs), together with proofs about it.

Modelling conventions:
* Rust delimiter strings are modelled as their UTF-8 byte sequences
  (lists of UInt8), because the source checks byte lengths and compares
  individual bytes of them.
* Filesystem paths are modelled as lists of path components; join appends a
  component, with_file_name replaces the final component.
* The filesystem is modelled as a predicate telling which paths exist, and
  file reading as a function from paths to optional contents; template file
  contents are modelled as lists of characters.
* CompileError is modelled as an inductive type with one constructor per
  message shape produced by the source, carrying the data the source
  interpolates into the message.
-/

namespace Askama

/-- UTF-8 byte sequence standing for a Rust String delimiter. -/
abbrev ByteStr := List UInt8

/-- A filesystem path, as its list of components. -/
abbrev Path := List String

/-- config.rs, enum WhitespaceHandling; the Default impl yields Preserve. -/
inductive WhitespaceHandling where
  | Preserve
  | Suppress
  | Minimize
  deriving DecidableEq

/-- config.rs, struct Syntax: the six delimiter strings of one syntax. -/
structure Syntax where
  block_start : ByteStr
  block_end : ByteStr
  expr_start : ByteStr
  expr_end : ByteStr
  comment_start : ByteStr
  comment_end : ByteStr
  deriving DecidableEq

/-- config.rs lines 133-144, impl Default for Syntax: the canonical
delimiters, as bytes (0x7b 0x25, 0x25 0x7d, 0x7b 0x7b, 0x7d 0x7d,
0x7b 0x23, 0x23 0x7d). -/
def Syntax.default : Syntax where
  block_start := [0x7b, 0x25]
  block_end := [0x25, 0x7d]
  expr_start := [0x7b, 0x7b]
  expr_end := [0x7d, 0x7d]
  comment_start := [0x7b, 0x23]
  comment_end := [0x23, 0x7d]

/-- config.rs, struct RawSyntax: one entry of the raw syntax list, each
delimiter field optional. -/
structure RawSyntax where
  name : String
  block_start : Option ByteStr := none
  block_end : Option ByteStr := none
  expr_start : Option ByteStr := none
  expr_end : Option ByteStr := none
  comment_start : Option ByteStr := none
  comment_end : Option ByteStr := none
  deriving DecidableEq

/-- config.rs, struct General; the source field default_syntax is renamed
defaultSyntaxName here. The whitespace field carries a serde default in the
source: a field absent from the document is modelled as none and resolved to
the default, Preserve, where the configuration is built. -/
structure General where
  dirs : Option (List String) := none
  defaultSyntaxName : Option String := none
  whitespace : Option WhitespaceHandling := none
  deriving DecidableEq

/-- config.rs, struct RawEscaper: an escaper path and its extensions. -/
structure RawEscaper where
  path : String
  extensions : List String
  deriving DecidableEq

/-- config.rs, struct RawConfig; the source field holding the raw syntax
list is renamed syntaxEntries here. -/
structure RawConfig where
  general : Option General := none
  syntaxEntries : Option (List RawSyntax) := none
  escaper : Option (List RawEscaper) := none
  deriving DecidableEq

/-- config.rs, derived Default for RawConfig: the all-absent raw document.
Lines 28-32 of config.rs map empty input text to this value instead of
running the TOML parser. -/
def RawConfig.default : RawConfig := {}

/-- lib.rs, struct CompileError. The source builds plain message strings;
each constructor here stands for one message shape and carries the values
the source interpolates into it. -/
inductive CompileError where
  /-- invalid TOML in the configuration file (config.rs line 196) -/
  | invalidToml
  /-- length of delimiters must be two (config.rs line 167) -/
  | delimiterLength
  /-- bad delimiters, needs one of the two characters in common
  (config.rs line 177), carrying block_start, comment_start, expr_start -/
  | badDelimiters (block_start comment_start expr_start : ByteStr)
  /-- the named syntax is already defined (config.rs line 61) -/
  | syntaxAlreadyDefined (name : String)
  /-- the named default syntax was not found (config.rs line 67) -/
  | defaultSyntaxNotFound (name : String)
  /-- template not found in directories (config.rs lines 115-119), carrying
  the requested path and the whole search-path list -/
  | templateNotFound (path : String) (dirs : List Path)
  /-- unable to open template file (config.rs lines 279-283) -/
  | templateReadFailure (path : Path)
  deriving DecidableEq

/-- config.rs, struct Config: the resolved configuration. The BTreeMap of
syntaxes is modelled as an association list with unique keys; the source
field default_syntax is renamed defaultSyntaxName; escaper extension sets
are kept as the lists they are collected from. -/
structure Config where
  dirs : List Path
  syntaxes : List (String × Syntax)
  defaultSyntaxName : String
  escapers : List (List String × String)
  whitespace : WhitespaceHandling
  deriving DecidableEq

/-- config.rs line 294, DEFAULT_SYNTAX_NAME. -/
def DEFAULT_SYNTAX_NAME : String := "default"

/-- config.rs lines 295-299, DEFAULT_ESCAPERS: the three built-in escaper
rules in their fixed order. -/
def DEFAULT_ESCAPERS : List (List String × String) :=
  [(["html", "htm", "xml"], "::askama::Html"),
   (["md", "none", "txt", "yml", ""], "::askama::Text"),
   (["j2", "jinja", "jinja2"], "::askama::Html")]

/-- Lookup in an association list, first binding wins: the model of map
lookup and contains_key. -/
def alistLookup {α : Type} (key : String) : List (String × α) → Option α
  | [] => none
  | (k, v) :: rest => if k = key then some v else alistLookup key rest

/-- First byte of a delimiter, as as_bytes()[0]; the source only reads it
after the length-two check, so the fallback for an empty list is never
reached there. -/
def byte0 (s : ByteStr) : UInt8 := s.headD 0

/-- Second byte of a delimiter, as as_bytes()[1]. -/
def byte1 (s : ByteStr) : UInt8 := (s.drop 1).headD 0

/-- config.rs lines 149-158: each absent delimiter field inherits the
canonical default for that field, each present field is used as given. -/
def RawSyntax.populate (raw : RawSyntax) : Syntax where
  block_start := raw.block_start.getD Syntax.default.block_start
  block_end := raw.block_end.getD Syntax.default.block_end
  expr_start := raw.expr_start.getD Syntax.default.expr_start
  expr_end := raw.expr_end.getD Syntax.default.expr_end
  comment_start := raw.comment_start.getD Syntax.default.comment_start
  comment_end := raw.comment_end.getD Syntax.default.comment_end

/-- config.rs lines 160-180: fail unless all six populated delimiters have
byte length two; then fail unless the three opening delimiters agree on the
first byte or agree on the second byte; otherwise succeed with the record. -/
def validateSyntax (s : Syntax) : Except CompileError Syntax :=
  if s.block_start.length ≠ 2 ∨ s.block_end.length ≠ 2 ∨
      s.expr_start.length ≠ 2 ∨ s.expr_end.length ≠ 2 ∨
      s.comment_start.length ≠ 2 ∨ s.comment_end.length ≠ 2 then
    .error .delimiterLength
  else if ¬ ((byte0 s.block_start = byte0 s.comment_start ∧
              byte0 s.block_start = byte0 s.expr_start) ∨
             (byte1 s.block_start = byte1 s.comment_start ∧
              byte1 s.block_start = byte1 s.expr_start)) then
    .error (.badDelimiters s.block_start s.comment_start s.expr_start)
  else
    .ok s

/-- config.rs lines 146-182, TryFrom RawSyntax for Syntax: populate the six
fields from the entry and the defaults, then validate. -/
def Syntax.try_from (raw : RawSyntax) : Except CompileError Syntax :=
  validateSyntax raw.populate

/-- config.rs lines 53-64: validate each raw syntax entry in order and
insert it under its name; a name already present (including the built-in
default) is an error. Validation of the entry runs before the duplicate
check, as in the source where try_from is evaluated as the insert argument. -/
def buildSyntaxes : List RawSyntax → List (String × Syntax) →
    Except CompileError (List (String × Syntax))
  | [], acc => .ok acc
  | raw :: rest, acc =>
    match Syntax.try_from raw with
    | .error e => .error e
    | .ok s =>
      if (alistLookup raw.name acc).isSome then
        .error (.syntaxAlreadyDefined raw.name)
      else
        buildSyntaxes rest (acc ++ [(raw.name, s)])

/-- config.rs lines 34-51, the dirs component: the general.dirs entries
joined onto the project root in declared order, else the single default
directory root/templates. -/
def resolvedDirs (root : Path) (raw : RawConfig) : List Path :=
  match raw.general with
  | some g =>
    match g.dirs with
    | some v => v.map (fun dir => root ++ [dir])
    | none => [root ++ ["templates"]]
  | none => [root ++ ["templates"]]

/-- config.rs lines 34-51, the default syntax name component: the
general.default_syntax value if present, else the literal default. -/
def resolvedDefaultSyntaxName (raw : RawConfig) : String :=
  match raw.general with
  | some g => g.defaultSyntaxName.getD DEFAULT_SYNTAX_NAME
  | none => DEFAULT_SYNTAX_NAME

/-- config.rs lines 34-51, the whitespace component: the document value when
the general section and its whitespace field are present (the serde default
fills Preserve for an absent field), else Preserve. -/
def documentWhitespace (raw : RawConfig) : WhitespaceHandling :=
  match raw.general with
  | some g => g.whitespace.getD .Preserve
  | none => .Preserve

/-- config.rs lines 70-82, the first escaper loop: push each user escaper
entry, in document order, onto the accumulator. -/
def pushEscapers (acc : List (List String × String)) :
    List RawEscaper → List (List String × String)
  | [] => acc
  | e :: rest => pushEscapers (acc ++ [(e.extensions, e.path)]) rest

/-- config.rs lines 21-94, Config::new, taken on an already parsed raw
document (the TOML parser is an external crate; per lines 28-32 empty input
yields RawConfig.default). Seeds the syntax table with the built-in default
entry, inserts the declared syntaxes, checks that the default syntax name is
a key of the table, and appends the built-in escapers after the user
escapers. -/
def Config.new (root : Path) (raw : RawConfig) : Except CompileError Config :=
  match buildSyntaxes (raw.syntaxEntries.getD [])
      [(DEFAULT_SYNTAX_NAME, Syntax.default)] with
  | .error e => .error e
  | .ok syntaxes =>
    if (alistLookup (resolvedDefaultSyntaxName raw) syntaxes).isNone then
      .error (.defaultSyntaxNotFound (resolvedDefaultSyntaxName raw))
    else
      .ok { dirs := resolvedDirs root raw
            syntaxes := syntaxes
            defaultSyntaxName := resolvedDefaultSyntaxName raw
            escapers := pushEscapers [] (raw.escaper.getD []) ++ DEFAULT_ESCAPERS
            whitespace := documentWhitespace raw }

/-- Modelled from the spec: lib.rs line 61 calls a three-argument
Config::new that also receives the call-site whitespace override from the
template attribute, and whose body is not under src (config.rs holds the
one-argument version). Per the spec, the explicit call-site override takes
precedence over general.whitespace, which takes precedence over Preserve. -/
def Config.newWith (root : Path) (raw : RawConfig)
    (templateWhitespace : Option WhitespaceHandling) :
    Except CompileError Config :=
  match Config.new root raw with
  | .error e => .error e
  | .ok c => .ok { c with whitespace := templateWhitespace.getD c.whitespace }

/-- Path.with_file_name as used at config.rs line 102: drop the final
component and append the given name. -/
def withFileName (root : Path) (path : String) : Path :=
  root.dropLast ++ [path]

/-- config.rs lines 108-119: scan the configured directories in declared
order and return the first join that exists; otherwise the template
not-found error naming the requested path and the whole directory list. -/
def findInDirs (dirs : List Path) (fs : Path → Bool) (path : String) :
    Except CompileError Path :=
  match dirs.find? (fun dir => fs (dir ++ [path])) with
  | some dir => .ok (dir ++ [path])
  | none => .error (.templateNotFound path dirs)

/-- config.rs lines 96-120, Config::find_template, with the filesystem
existence check passed in as a predicate: when start_at is given and its
sibling exists, that sibling is returned before any directory is consulted. -/
def Config.find_template (c : Config) (fs : Path → Bool) (path : String)
    (start_at : Option Path) : Except CompileError Path :=
  match start_at with
  | some root =>
    if fs (withFileName root path) then .ok (withFileName root path)
    else findInDirs c.dirs fs path
  | none => findInDirs c.dirs fs path

/-- lib.rs lines 24-38 output: the emitted token stream is modelled as the
list of items appended to it, each a rendered compile error or a piece of
generated code. -/
inductive Emitted where
  | compileFailure (e : CompileError)
  | code (source : String)
  deriving DecidableEq

/-- lib.rs lines 24-38, derive_template, with the results of the primary
pipeline (build_template) and of the degraded fallback pipeline
(build_skeleton) passed in, both pipelines running over external
collaborators: on primary success only the generated code is emitted; on
primary failure the compile error is emitted and, only when the fallback
succeeds, its output is appended after the error; a fallback failure is
ignored. -/
def derive_template (primary fallback : Except CompileError String) :
    List Emitted :=
  match primary with
  | .ok source => [.code source]
  | .error e =>
    match fallback with
    | .ok source => [.compileFailure e, .code source]
    | .error _ => [.compileFailure e]

/-- parser ErrorInfo: zero-based row, zero-based column, and the source
excerpt after the match. -/
structure ErrorInfo where
  row : Nat
  column : Nat
  source_after : List Char
  deriving DecidableEq

/-- One step of the row and column scan: a newline moves to the next row at
column zero; any other character advances the column. -/
def advanceRowCol (rc : Nat × Nat) (c : Char) : Nat × Nat :=
  if c = '\n' then (rc.1 + 1, 0) else (rc.1, rc.2 + 1)

/-- Modelled from the spec: generate_error_info belongs to the external
parser crate and is not under src. The spec data model (SourceLocation)
prescribes a zero-based row and a zero-based column computed from the offset
of the offending sub-text inside the enclosing file text, and the text after
the match as the excerpt; the sub-text is a tail of the file text, so its
offset is the length difference. -/
def generate_error_info (source node_source : List Char) : ErrorInfo where
  row :=
    ((source.take (source.length - node_source.length)).foldl
      advanceRowCol (0, 0)).1
  column :=
    ((source.take (source.length - node_source.length)).foldl
      advanceRowCol (0, 0)).2
  source_after := source.drop (source.length - node_source.length)

/-- lib.rs lines 179-196, the Display impl of FileInfo in the branch where
both the file text and the sub-text are available: newline, arrow, path,
colon, row plus one, colon, column, newline, excerpt. Only the row is
incremented; the column is written as received. -/
def fileInfoRender (file_path : String) (source node_source : List Char) :
    String :=
  "\n  --> " ++ file_path ++ ":"
    ++ toString ((generate_error_info source node_source).row + 1) ++ ":"
    ++ toString (generate_error_info source node_source).column
    ++ "\n" ++ String.mk (generate_error_info source node_source).source_after

/-- config.rs lines 277-291, get_template_source, with the filesystem read
passed in as a function: a failed read is the open error; on success, when
the contents end with a newline exactly that final character is popped. -/
def get_template_source (fsRead : Path → Option (List Char))
    (tpl_path : Path) : Except CompileError (List Char) :=
  match fsRead tpl_path with
  | none => .error (.templateReadFailure tpl_path)
  | some source =>
    if source.getLast? = some '\n' then .ok source.dropLast else .ok source

/-- Inversion for a successful Config.new: it exposes the built syntax
table, the key check, and the shape of the resulting record. -/
theorem config_new_ok_elim {root : Path} {raw : RawConfig} {c : Config}
    (h : Config.new root raw = .ok c) :
    ∃ m, buildSyntaxes (raw.syntaxEntries.getD [])
        [(DEFAULT_SYNTAX_NAME, Syntax.default)] = .ok m ∧
      alistLookup (resolvedDefaultSyntaxName raw) m ≠ none ∧
      c = { dirs := resolvedDirs root raw
            syntaxes := m
            defaultSyntaxName := resolvedDefaultSyntaxName raw
            escapers := pushEscapers [] (raw.escaper.getD []) ++ DEFAULT_ESCAPERS
            whitespace := documentWhitespace raw } := by
  unfold Config.new at h
  cases hb : buildSyntaxes (raw.syntaxEntries.getD [])
      [(DEFAULT_SYNTAX_NAME, Syntax.default)] with
  | error e => rw [hb] at h; exact absurd h (by simp)
  | ok m =>
    rw [hb] at h
    simp only [] at h
    by_cases hk : (alistLookup (resolvedDefaultSyntaxName raw) m).isNone = true
    · rw [if_pos hk] at h; exact absurd h (by simp)
    · rw [if_neg hk] at h
      cases h
      exact ⟨m, rfl, by simpa using hk, rfl⟩

/-- C1: resolving the empty configuration document succeeds, and the result
has exactly the one built-in syntax named default with the canonical
delimiter bytes (block 0x7b 0x25 and 0x25 0x7d, expression 0x7b 0x7b and
0x7d 0x7d, comment 0x7b 0x23 and 0x23 0x7d), default syntax name default,
the single search directory root/templates, and whitespace policy
Preserve. -/
theorem empty_document_defaults (root : Path) :
    ∃ c, Config.new root RawConfig.default = .ok c ∧
      c.syntaxes = [("default", Syntax.default)] ∧
      Syntax.default.block_start = [0x7b, 0x25] ∧
      Syntax.default.block_end = [0x25, 0x7d] ∧
      Syntax.default.expr_start = [0x7b, 0x7b] ∧
      Syntax.default.expr_end = [0x7d, 0x7d] ∧
      Syntax.default.comment_start = [0x7b, 0x23] ∧
      Syntax.default.comment_end = [0x23, 0x7d] ∧
      c.defaultSyntaxName = "default" ∧
      c.dirs = [root ++ ["templates"]] ∧
      c.whitespace = WhitespaceHandling.Preserve :=
  ⟨_, rfl, rfl, rfl, rfl, rfl, rfl, rfl, rfl, rfl, rfl, rfl⟩

/-- C4: for every document and override, the resolved whitespace policy is
the explicit call-site override when one is supplied, else the document
value when present, else Preserve. -/
theorem whitespace_precedence (root : Path) (raw : RawConfig)
    (o : Option WhitespaceHandling) (c : Config)
    (h : Config.newWith root raw o = .ok c) :
    (∀ w, o = some w → c.whitespace = w) ∧
    (o = none → ∀ g w, raw.general = some g → g.whitespace = some w →
      c.whitespace = w) ∧
    (o = none →
      (raw.general = none ∨ ∃ g, raw.general = some g ∧ g.whitespace = none) →
      c.whitespace = WhitespaceHandling.Preserve) := by
  have hw : c.whitespace = o.getD (documentWhitespace raw) := by
    unfold Config.newWith at h
    cases hn : Config.new root raw with
    | error e => rw [hn] at h; exact absurd h (by simp)
    | ok c0 =>
      rw [hn] at h
      simp only [] at h
      cases h
      obtain ⟨m, _, _, rfl⟩ := config_new_ok_elim hn
      rfl
  refine ⟨?_, ?_, ?_⟩
  · rintro w rfl; simpa using hw
  · rintro rfl g w hg hww
    simp only [Option.getD_none] at hw
    rw [hw]
    simp [documentWhitespace, hg, hww]
  · rintro rfl hcase
    simp only [Option.getD_none] at hw
    rw [hw]
    rcases hcase with hnone | ⟨g, hg, hwn⟩
    · simp [documentWhitespace, hnone]
    · simp [documentWhitespace, hg, hwn]

/-- A raw document with a general section declaring whitespace Suppress. -/
def rawWsDoc : RawConfig := { general := some { whitespace := some .Suppress } }

/-- Witness for C4: on a document declaring Suppress, the call-site override
Minimize wins. -/
theorem whitespace_precedence_witness :
    ∃ c, Config.newWith ["r"] rawWsDoc (some WhitespaceHandling.Minimize) =
        .ok c ∧
      c.whitespace = WhitespaceHandling.Minimize := by
  refine ⟨_, rfl, ?_⟩
  exact (whitespace_precedence ["r"] rawWsDoc _ _ rfl).1 _ rfl

/-- pushEscapers appends the mapped entries, in order, after the
accumulator. -/
theorem pushEscapers_eq (l : List RawEscaper)
    (acc : List (List String × String)) :
    pushEscapers acc l = acc ++ l.map (fun e => (e.extensions, e.path)) := by
  induction l generalizing acc with
  | nil => simp [pushEscapers]
  | cons e rest ih => simp [pushEscapers, ih]

/-- C6: for every document, the resolved escaper-rule list is exactly the
user-declared entries in document order followed by the three built-in
rules in their fixed order, with no deduplication or conflict check. -/
theorem escaper_rules_resolved (root : Path) (raw : RawConfig) (c : Config)
    (h : Config.new root raw = .ok c) :
    c.escapers = (raw.escaper.getD []).map (fun e => (e.extensions, e.path))
      ++ DEFAULT_ESCAPERS ∧
    DEFAULT_ESCAPERS =
      [(["html", "htm", "xml"], "::askama::Html"),
       (["md", "none", "txt", "yml", ""], "::askama::Text"),
       (["j2", "jinja", "jinja2"], "::askama::Html")] := by
  obtain ⟨m, hm, hk, rfl⟩ := config_new_ok_elim h
  exact ⟨by simp [pushEscapers_eq], rfl⟩

/-- A raw document declaring one user escaper, mapping the js extension. -/
def jsDoc : RawConfig :=
  { escaper := some [{ path := "::askama::Js", extensions := ["js"] }] }

/-- Witness for C6: the document with one js escaper resolves to the user
rule followed by the three built-in rules. -/
theorem escaper_rules_witness :
    ∃ c, Config.new ["r"] jsDoc = .ok c ∧
      c.escapers =
        [(["js"], "::askama::Js"),
         (["html", "htm", "xml"], "::askama::Html"),
         (["md", "none", "txt", "yml", ""], "::askama::Text"),
         (["j2", "jinja", "jinja2"], "::askama::Html")] := by
  refine ⟨_, rfl, ?_⟩
  have h := (escaper_rules_resolved ["r"] jsDoc _ rfl).1
  rw [h]
  decide

/-- Appending bindings on the right preserves an existing first binding. -/
theorem alistLookup_append_left {α : Type} (key : String)
    (l1 l2 : List (String × α)) (v : α) (h : alistLookup key l1 = some v) :
    alistLookup key (l1 ++ l2) = some v := by
  induction l1 with
  | nil => simp [alistLookup] at h
  | cons p rest ih =>
    obtain ⟨k, w⟩ := p
    by_cases hk : k = key
    · simpa [alistLookup, hk] using h
    · simp only [alistLookup, if_neg hk] at h ⊢
      exact ih h

/-- buildSyntaxes only appends bindings, so every binding present in the
accumulator is present, unchanged, in a successful result. -/
theorem buildSyntaxes_preserves (entries : List RawSyntax)
    (acc m : List (String × Syntax)) (key : String) (v : Syntax)
    (hb : buildSyntaxes entries acc = .ok m)
    (hv : alistLookup key acc = some v) :
    alistLookup key m = some v := by
  induction entries generalizing acc with
  | nil =>
    simp only [buildSyntaxes] at hb
    cases hb
    exact hv
  | cons raw rest ih =>
    simp only [buildSyntaxes] at hb
    cases ht : Syntax.try_from raw with
    | error e => rw [ht] at hb; exact absurd hb (by simp)
    | ok s =>
      rw [ht] at hb
      simp only [] at hb
      by_cases hd : (alistLookup raw.name acc).isSome = true
      · rw [if_pos hd] at hb; exact absurd hb (by simp)
      · rw [if_neg hd] at hb
        exact ih _ hb (alistLookup_append_left key acc _ v hv)

/-- C7: every successfully resolved configuration has its default syntax
name as a key of the syntax table and keeps the built-in default entry with
the canonical delimiters; and when the table builds but the default name is
not a key, resolution fails with the unknown-default-syntax error naming
it. -/
theorem config_invariants (root : Path) (raw : RawConfig) :
    (∀ c, Config.new root raw = .ok c →
      (alistLookup c.defaultSyntaxName c.syntaxes).isSome = true ∧
      alistLookup DEFAULT_SYNTAX_NAME c.syntaxes = some Syntax.default) ∧
    (∀ m, buildSyntaxes (raw.syntaxEntries.getD [])
        [(DEFAULT_SYNTAX_NAME, Syntax.default)] = .ok m →
      alistLookup (resolvedDefaultSyntaxName raw) m = none →
      Config.new root raw =
        .error (.defaultSyntaxNotFound (resolvedDefaultSyntaxName raw))) := by
  constructor
  · intro c h
    obtain ⟨m, hm, hk, rfl⟩ := config_new_ok_elim h
    constructor
    · exact Option.isSome_iff_ne_none.mpr hk
    · exact buildSyntaxes_preserves _ _ _ _ _ hm (by simp [alistLookup])
  · intro m hm hnone
    unfold Config.new
    rw [hm]
    simp [hnone]

/-- A raw document whose declared default syntax names no entry. -/
def danglingDoc : RawConfig :=
  { general := some { defaultSyntaxName := some "foo" } }

/-- Witness for C7: the empty document satisfies both invariants, and a
dangling default syntax name makes resolution fail with the
unknown-default-syntax error naming it. -/
theorem config_invariants_witness :
    (∃ c, Config.new ["r"] RawConfig.default = .ok c ∧
      (alistLookup c.defaultSyntaxName c.syntaxes).isSome = true ∧
      alistLookup DEFAULT_SYNTAX_NAME c.syntaxes = some Syntax.default) ∧
    Config.new ["r"] danglingDoc = .error (.defaultSyntaxNotFound "foo") := by
  constructor
  · exact ⟨_, rfl, (config_invariants ["r"] RawConfig.default).1 _ rfl⟩
  · exact (config_invariants ["r"] danglingDoc).2
      [(DEFAULT_SYNTAX_NAME, Syntax.default)] rfl (by decide)

/-- C5: validation of a raw syntax entry fails with the delimiter-length
error exactly when one of the six populated delimiters does not have byte
length two; with all lengths two it fails with the bad-delimiters error
exactly when the three opening delimiters neither all share the same first
byte nor all share the same second byte; and otherwise it succeeds with the
populated record. -/
theorem try_from_conditions (raw : RawSyntax) :
    (Syntax.try_from raw = .error .delimiterLength ↔
      (raw.populate.block_start.length ≠ 2 ∨
       raw.populate.block_end.length ≠ 2 ∨
       raw.populate.expr_start.length ≠ 2 ∨
       raw.populate.expr_end.length ≠ 2 ∨
       raw.populate.comment_start.length ≠ 2 ∨
       raw.populate.comment_end.length ≠ 2)) ∧
    ((raw.populate.block_start.length = 2 ∧
      raw.populate.block_end.length = 2 ∧
      raw.populate.expr_start.length = 2 ∧
      raw.populate.expr_end.length = 2 ∧
      raw.populate.comment_start.length = 2 ∧
      raw.populate.comment_end.length = 2) →
      (Syntax.try_from raw =
          .error (.badDelimiters raw.populate.block_start
            raw.populate.comment_start raw.populate.expr_start) ↔
        ¬ ((byte0 raw.populate.block_start = byte0 raw.populate.comment_start ∧
            byte0 raw.populate.block_start = byte0 raw.populate.expr_start) ∨
           (byte1 raw.populate.block_start = byte1 raw.populate.comment_start ∧
            byte1 raw.populate.block_start = byte1 raw.populate.expr_start)))) ∧
    ((raw.populate.block_start.length = 2 ∧
      raw.populate.block_end.length = 2 ∧
      raw.populate.expr_start.length = 2 ∧
      raw.populate.expr_end.length = 2 ∧
      raw.populate.comment_start.length = 2 ∧
      raw.populate.comment_end.length = 2) →
      ((byte0 raw.populate.block_start = byte0 raw.populate.comment_start ∧
        byte0 raw.populate.block_start = byte0 raw.populate.expr_start) ∨
       (byte1 raw.populate.block_start = byte1 raw.populate.comment_start ∧
        byte1 raw.populate.block_start = byte1 raw.populate.expr_start)) →
      Syntax.try_from raw = .ok raw.populate) := by
  set s := raw.populate with hs
  refine ⟨?_, ?_, ?_⟩
  · by_cases hL : s.block_start.length ≠ 2 ∨ s.block_end.length ≠ 2 ∨
        s.expr_start.length ≠ 2 ∨ s.expr_end.length ≠ 2 ∨
        s.comment_start.length ≠ 2 ∨ s.comment_end.length ≠ 2
    · simp [Syntax.try_from, validateSyntax, hL]
    · by_cases hS : (byte0 s.block_start = byte0 s.comment_start ∧
          byte0 s.block_start = byte0 s.expr_start) ∨
          (byte1 s.block_start = byte1 s.comment_start ∧
           byte1 s.block_start = byte1 s.expr_start)
      · simp [Syntax.try_from, validateSyntax, hL, hS]
      · simp [Syntax.try_from, validateSyntax, hL, hS]
  · intro hlen
    have hL : ¬ (s.block_start.length ≠ 2 ∨ s.block_end.length ≠ 2 ∨
        s.expr_start.length ≠ 2 ∨ s.expr_end.length ≠ 2 ∨
        s.comment_start.length ≠ 2 ∨ s.comment_end.length ≠ 2) := by
      simp only [not_or, not_not]
      exact ⟨hlen.1, hlen.2.1, hlen.2.2.1, hlen.2.2.2.1, hlen.2.2.2.2.1,
        hlen.2.2.2.2.2⟩
    by_cases hS : (byte0 s.block_start = byte0 s.comment_start ∧
        byte0 s.block_start = byte0 s.expr_start) ∨
        (byte1 s.block_start = byte1 s.comment_start ∧
         byte1 s.block_start = byte1 s.expr_start)
    · simp [Syntax.try_from, validateSyntax, hL, hS]
    · simp [Syntax.try_from, validateSyntax, hL, hS]
  · intro hlen hS
    have hL : ¬ (s.block_start.length ≠ 2 ∨ s.block_end.length ≠ 2 ∨
        s.expr_start.length ≠ 2 ∨ s.expr_end.length ≠ 2 ∨
        s.comment_start.length ≠ 2 ∨ s.comment_end.length ≠ 2) := by
      simp only [not_or, not_not]
      exact ⟨hlen.1, hlen.2.1, hlen.2.2.1, hlen.2.2.2.1, hlen.2.2.2.2.1,
        hlen.2.2.2.2.2⟩
    simp [Syntax.try_from, validateSyntax, hL, hS]

/-- A raw syntax entry with a one-byte block-start delimiter. -/
def shortRaw : RawSyntax := { name := "short", block_start := some [0x31] }

/-- The raw syntax entry foo overriding only block_start, to 0x7b 0x3c. -/
def fooRaw : RawSyntax := { name := "foo", block_start := some [0x7b, 0x3c] }

/-- A raw syntax entry whose block-start 0x31 0x32 shares no byte position
with the default comment-start and expression-start. -/
def clashRaw : RawSyntax := { name := "clash", block_start := some [0x31, 0x32] }

/-- Witness for C5: a short delimiter is rejected with the length error, the
no-byte-in-common entry is rejected with the bad-delimiters error, and an
entry agreeing on the first byte is accepted. -/
theorem try_from_conditions_witness :
    Syntax.try_from shortRaw = .error .delimiterLength ∧
    Syntax.try_from clashRaw =
      .error (.badDelimiters [0x31, 0x32] [0x7b, 0x23] [0x7b, 0x7b]) ∧
    Syntax.try_from fooRaw = .ok fooRaw.populate := by
  refine ⟨?_, ?_, ?_⟩
  · exact (try_from_conditions shortRaw).1.mpr (by decide)
  · exact ((try_from_conditions clashRaw).2.1 (by decide)).mpr (by decide)
  · exact (try_from_conditions fooRaw).2.2 (by decide) (by decide)

/-- validateSyntax returns its argument on success. -/
theorem validateSyntax_ok (t s : Syntax) (h : validateSyntax t = .ok s) :
    s = t := by
  unfold validateSyntax at h
  split at h
  · exact absurd h (by simp)
  · split at h
    · exact absurd h (by simp)
    · cases h; rfl

/-- C8: for every raw syntax entry accepted by validation, each delimiter
field that was absent equals the canonical default for that field and each
field that was present is used as given. -/
theorem try_from_inherits (raw : RawSyntax) (s : Syntax)
    (h : Syntax.try_from raw = .ok s) :
    s.block_start = raw.block_start.getD Syntax.default.block_start ∧
    s.block_end = raw.block_end.getD Syntax.default.block_end ∧
    s.expr_start = raw.expr_start.getD Syntax.default.expr_start ∧
    s.expr_end = raw.expr_end.getD Syntax.default.expr_end ∧
    s.comment_start = raw.comment_start.getD Syntax.default.comment_start ∧
    s.comment_end = raw.comment_end.getD Syntax.default.comment_end := by
  have hst : s = raw.populate := validateSyntax_ok _ _ h
  subst hst
  exact ⟨rfl, rfl, rfl, rfl, rfl, rfl⟩

/-- A raw document declaring the syntax entry foo with only block_start
overridden to 0x7b 0x3c and selecting foo as default syntax. -/
def fooDoc : RawConfig :=
  { general := some { defaultSyntaxName := some "foo" },
    syntaxEntries := some [fooRaw] }

/-- Witness for C8: the foo entry overriding only block_start validates, its
block_start is the override, its other five delimiters are the canonical
defaults, and the document declaring it resolves with foo bound to that
record. -/
theorem try_from_inherits_witness :
    Syntax.try_from fooRaw = .ok fooRaw.populate ∧
    (fooRaw.populate.block_start = [0x7b, 0x3c] ∧
     fooRaw.populate.block_end = Syntax.default.block_end ∧
     fooRaw.populate.expr_start = Syntax.default.expr_start ∧
     fooRaw.populate.expr_end = Syntax.default.expr_end ∧
     fooRaw.populate.comment_start = Syntax.default.comment_start ∧
     fooRaw.populate.comment_end = Syntax.default.comment_end) ∧
    fooRaw.populate.block_start =
      fooRaw.block_start.getD Syntax.default.block_start ∧
    (∃ c, Config.new ["r"] fooDoc = .ok c ∧
      alistLookup "foo" c.syntaxes = some fooRaw.populate) := by
  refine ⟨rfl, by decide, ?_, ?_⟩
  · exact (try_from_inherits fooRaw fooRaw.populate rfl).1
  · exact ⟨_, rfl, by decide⟩

/-- find? on a split list returns the marked element when the predicate is
false on everything before it and true on it. -/
theorem find?_append_first {α : Type} (p : α → Bool) (l1 : List α) (a : α)
    (l2 : List α) (h1 : ∀ x ∈ l1, p x = false) (ha : p a = true) :
    List.find? p (l1 ++ a :: l2) = some a := by
  induction l1 with
  | nil => simpa using List.find?_cons_of_pos l2 ha
  | cons x t ih =>
    have hx : p x = false := h1 x (List.mem_cons_self x t)
    rw [List.cons_append, List.find?_cons_of_neg _ (by simp [hx])]
    exact ih (fun y hy => h1 y (List.mem_cons_of_mem x hy))

/-- C2: locating a template returns the sibling of the caller whenever a
caller is given and the sibling exists, independently of the configured
directories; otherwise it returns the join of the first directory, in
declared order, where the name exists; and when nothing exists it fails
with the template-not-found error carrying the requested name and the whole
search-path list. -/
theorem find_template_spec (c : Config) (fs : Path → Bool) (path : String)
    (start_at : Option Path) :
    (∀ root, start_at = some root → fs (withFileName root path) = true →
      Config.find_template c fs path start_at = .ok (withFileName root path)) ∧
    ((∀ root, start_at = some root → fs (withFileName root path) = false) →
      (∀ l1 dir l2, c.dirs = l1 ++ dir :: l2 →
        (∀ d ∈ l1, fs (d ++ [path]) = false) → fs (dir ++ [path]) = true →
        Config.find_template c fs path start_at = .ok (dir ++ [path])) ∧
      ((∀ d ∈ c.dirs, fs (d ++ [path]) = false) →
        Config.find_template c fs path start_at =
          .error (.templateNotFound path c.dirs))) := by
  constructor
  · rintro root rfl hex
    simp [Config.find_template, hex]
  · intro hsib
    have hdirs : Config.find_template c fs path start_at =
        findInDirs c.dirs fs path := by
      cases start_at with
      | none => rfl
      | some root => simp [Config.find_template, hsib root rfl]
    constructor
    · intro l1 dir l2 hsplit hl1 hdir
      rw [hdirs]
      unfold findInDirs
      rw [hsplit, find?_append_first _ l1 dir l2 hl1 hdir]
    · intro hnone
      rw [hdirs]
      unfold findInDirs
      rw [List.find?_eq_none.mpr (fun d hd => by simp [hnone d hd])]

/-- A resolved configuration with the single search directory r/templates. -/
def configW : Config :=
  { dirs := [["r", "templates"]],
    syntaxes := [("default", Syntax.default)],
    defaultSyntaxName := "default",
    escapers := DEFAULT_ESCAPERS,
    whitespace := .Preserve }

/-- A filesystem on which d/b.html and r/templates/a.html exist. -/
def fsW : Path → Bool := fun p =>
  decide (p = ["d", "b.html"]) || decide (p = ["r", "templates", "a.html"])

/-- Witness for C2: the existing sibling d/b.html wins over the search path,
a.html is found in the first (only) configured directory, and a missing name
fails with the error naming it and the directory list. -/
theorem find_template_spec_witness :
    Config.find_template configW fsW "b.html" (some ["d", "a.html"]) =
      .ok ["d", "b.html"] ∧
    Config.find_template configW fsW "a.html" none =
      .ok ["r", "templates", "a.html"] ∧
    Config.find_template configW fsW "c.html" none =
      .error (.templateNotFound "c.html" [["r", "templates"]]) := by
  refine ⟨?_, ?_, ?_⟩
  · exact (find_template_spec configW fsW "b.html" (some ["d", "a.html"])).1
      ["d", "a.html"] rfl (by decide)
  · exact ((find_template_spec configW fsW "a.html" none).2
      (fun root h => by cases h)).1 [] ["r", "templates"] [] rfl
      (fun d hd => by cases hd) (by decide)
  · exact ((find_template_spec configW fsW "c.html" none).2
      (fun root h => by cases h)).2
      (fun d hd => by
        simp only [configW, List.mem_singleton] at hd
        subst hd
        decide)

/-- C3: after a primary failure the emitted stream starts with the primary
compile error; a fallback failure is swallowed, leaving exactly the primary
error; a fallback success only appends its code after the primary error. -/
theorem derive_template_fallback (e : CompileError)
    (fallback : Except CompileError String) :
    derive_template (.error e) fallback =
      .compileFailure e ::
        (match fallback with
         | .ok source => [.code source]
         | .error _ => []) ∧
    (∀ e2, fallback = .error e2 →
      derive_template (.error e) fallback = [.compileFailure e]) ∧
    (∀ source, fallback = .ok source →
      derive_template (.error e) fallback =
        [.compileFailure e, .code source]) := by
  refine ⟨?_, ?_, ?_⟩
  · cases fallback <;> rfl
  · rintro e2 rfl; rfl
  · rintro source rfl; rfl

/-- Witness for C3: with a failing fallback only the primary error is
emitted; with a succeeding fallback its code follows the primary error. -/
theorem derive_template_fallback_witness :
    derive_template (.error .delimiterLength) (.error .invalidToml) =
      [.compileFailure .delimiterLength] ∧
    derive_template (.error .delimiterLength) (.ok "fallback code") =
      [.compileFailure .delimiterLength, .code "fallback code"] :=
  ⟨(derive_template_fallback .delimiterLength (.error .invalidToml)).2.1
      .invalidToml rfl,
   (derive_template_fallback .delimiterLength (.ok "fallback code")).2.2
      "fallback code" rfl⟩

/-- The row component of the scan counts the newlines seen. -/
theorem foldl_advance_fst (l : List Char) (r k : Nat) :
    (l.foldl advanceRowCol (r, k)).1 = r + l.count '\n' := by
  induction l generalizing r k with
  | nil => simp
  | cons c t ih =>
    by_cases hc : c = '\n'
    · subst hc
      rw [List.foldl_cons]
      simp only [advanceRowCol, if_pos rfl]
      rw [ih]
      simp [List.count_cons]
      omega
    · rw [List.foldl_cons]
      simp only [advanceRowCol, if_neg hc]
      rw [ih]
      simp [List.count_cons, hc]

/-- Scanning a stretch without newlines keeps the row and advances the
column by its length. -/
theorem foldl_advance_no_newline (v : List Char) (r k : Nat)
    (hv : '\n' ∉ v) : v.foldl advanceRowCol (r, k) = (r, k + v.length) := by
  induction v generalizing k with
  | nil => simp
  | cons c t ih =>
    have hc : ¬ c = '\n' := fun h => hv (h ▸ List.mem_cons_self c t)
    rw [List.foldl_cons]
    simp only [advanceRowCol, if_neg hc]
    rw [ih (k + 1) (fun h => hv (List.mem_cons_of_mem c h))]
    simp
    omega

/-- C9 counterexample: on the file text ab, newline, cd with offending
sub-text d, the zero-based location is row one, column one; the rendering
prints path colon 2 colon 1, converting only the row to one-based, which
differs from the both-one-based form path colon 2 colon 2 that the claim
requires. -/
theorem render_counterexample :
    (generate_error_info ("ab\ncd".toList) ("d".toList)).row = 1 ∧
    (generate_error_info ("ab\ncd".toList) ("d".toList)).column = 1 ∧
    fileInfoRender "p" ("ab\ncd".toList) ("d".toList) = "\n  --> p:2:1\nd" ∧
    fileInfoRender "p" ("ab\ncd".toList) ("d".toList) ≠ "\n  --> p:2:2\nd" :=
  ⟨by decide, by decide, by decide, by decide⟩

/-- C9 amended: with both texts available, writing the text before the match
as u followed by its last line v (u empty or ending in a newline, v free of
newlines), the rendering prints path colon row colon column with the row
converted to one-based (the newline count before the match plus one) while
the column stays the zero-based character count of the last line, followed
by the excerpt from the match on. -/
theorem render_amended (file_path : String) (source node_source : List Char)
    (u v : List Char)
    (hsplit : source.take (source.length - node_source.length) = u ++ v)
    (hu : u = [] ∨ ∃ u2, u = u2 ++ ['\n'])
    (hv : '\n' ∉ v) :
    fileInfoRender file_path source node_source =
      "\n  --> " ++ file_path ++ ":"
        ++ toString ((u ++ v).count '\n' + 1) ++ ":"
        ++ toString v.length ++ "\n"
        ++ String.mk (source.drop (source.length - node_source.length)) := by
  have hfold : ((source.take (source.length - node_source.length)).foldl
      advanceRowCol (0, 0)) = ((u ++ v).count '\n', v.length) := by
    rw [hsplit, List.foldl_append]
    rcases hu with rfl | ⟨u2, rfl⟩
    · rw [show ([] : List Char).foldl advanceRowCol (0, 0) = (0, 0) from rfl]
      rw [foldl_advance_no_newline v 0 0 hv]
      have : v.count '\n' = 0 := by
        rw [List.count_eq_zero]
        simpa using hv
      simp [this]
    · rw [List.foldl_append]
      rw [show (['\n'] : List Char).foldl advanceRowCol
          (u2.foldl advanceRowCol (0, 0)) =
          ((u2.foldl advanceRowCol (0, 0)).1 + 1, 0) from by
        simp [advanceRowCol]]
      rw [foldl_advance_fst u2 0 0]
      rw [foldl_advance_no_newline v _ 0 hv]
      have : v.count '\n' = 0 := by
        rw [List.count_eq_zero]
        simpa using hv
      simp [List.count_append, this]
  simp only [fileInfoRender, generate_error_info, hfold]

/-- Witness for C9 amended: on the concrete file text the rendering is the
arrow line p colon 2 colon 1 followed by the excerpt d. -/
theorem render_amended_witness :
    fileInfoRender "p" ("ab\ncd".toList) ("d".toList) = "\n  --> p:2:1\nd" := by
  have h := render_amended "p" ("ab\ncd".toList) ("d".toList)
    ("ab\n".toList) ("c".toList) (by decide)
    (Or.inr ⟨"ab".toList, by decide⟩) (by decide)
  rw [h]
  decide

/-- C10: a successfully read template keeps its contents except that exactly
one trailing newline is removed when the contents end with one; contents
ending in two newlines keep exactly one. -/
theorem get_template_source_trailing (fsRead : Path → Option (List Char))
    (tpl_path : Path) (source : List Char)
    (h : fsRead tpl_path = some source) :
    (∀ cs, source = cs ++ ['\n'] →
      get_template_source fsRead tpl_path = .ok cs) ∧
    (source.getLast? ≠ some '\n' →
      get_template_source fsRead tpl_path = .ok source) ∧
    (∀ cs, source = cs ++ ['\n', '\n'] →
      get_template_source fsRead tpl_path = .ok (cs ++ ['\n'])) := by
  refine ⟨?_, ?_, ?_⟩
  · rintro cs rfl
    simp [get_template_source, h, List.getLast?_concat]
  · intro hne
    simp [get_template_source, h, hne]
  · rintro cs rfl
    have hsh : cs ++ ['\n', '\n'] = (cs ++ ['\n']) ++ ['\n'] := by simp
    rw [hsh] at h
    simp [get_template_source, h, List.getLast?_concat]

/-- A filesystem read returning contents bar followed by two newlines for
the template path t/b.html. -/
def fsReadW : Path → Option (List Char) := fun p =>
  if p = ["t", "b.html"] then some ("bar\n\n".toList) else none

/-- Witness for C10: the file ending in two newlines keeps exactly one. -/
theorem get_template_source_witness :
    get_template_source fsReadW ["t", "b.html"] = .ok ("bar\n".toList) := by
  have h := (get_template_source_trailing fsReadW ["t", "b.html"]
    ("bar\n\n".toList) (by decide)).2.2 ("bar".toList) (by decide)
  rw [h]
  exact congrArg Except.ok (by decide)

end Askama
